import Mathlib

set_option maxRecDepth 100000

/-!
Verification of the job-ETL identity-resolution and ranking core.

Shallow embedding of:
* `src/services/normalizer/hash_generator.py` (whitespace normalization, MD5 fingerprint)
* `src/services/normalizer/normalize.py` (canonicalization, salary swap rule)
* `src/services/normalizer/db_operations.py` (staging upsert merge semantics)
* `src/services/ranker/scoring.py` (eight subscores and the weighted rank)
* `src/services/common/seniority_extractor.py` (title → seniority cascade)

Python floats are modelled by `ℚ` (the scoring arithmetic is exact on the
rationals used by every claim), machine integers by `Nat` with explicit
`% 2 ^ 32` where MD5 overflow matters, nullable values by `Option`, and
raising (`ValueError` / `NormalizationError` / `ZeroDivisionError`) by
`Except` / `Option` results.
-/

namespace JobEtl

/-! ### Python string primitives -/

/-- ASCII whitespace recognised by Python's `str.strip` / `\s`
(the Unicode-only whitespace code points play no role in any claim). -/
def pySpace (c : Char) : Bool :=
  c = ' ' || c = '\t' || c = '\n' || c = '\x0d' || c = '\x0b' || c = '\x0c'

/-- Python `str.lower` (ASCII fragment): `Char.toLower` on every
character. -/
def lowerStr (s : String) : String := String.mk (s.data.map Char.toLower)

/-- Python `str.strip()` on a character list. -/
def pyStripList (l : List Char) : List Char :=
  ((l.dropWhile pySpace).reverse.dropWhile pySpace).reverse

/-- Python `str.strip()`. -/
def pyStrip (s : String) : String := String.mk (pyStripList s.data)

/-! ### MD5 (`hashlib.md5(...).hexdigest()`)

Executable translation of the RFC 1321 algorithm used by
`hash_generator.generate_hash_key`; 32-bit words are `Nat` reduced
`% 2 ^ 32`. -/

/-- Per-round additive constants `K[0..63]` of MD5. -/
def md5K : List Nat :=
  [0xd76aa478, 0xe8c7b756, 0x242070db, 0xc1bdceee,
   0xf57c0faf, 0x4787c62a, 0xa8304613, 0xfd469501,
   0x698098d8, 0x8b44f7af, 0xffff5bb1, 0x895cd7be,
   0x6b901122, 0xfd987193, 0xa679438e, 0x49b40821,
   0xf61e2562, 0xc040b340, 0x265e5a51, 0xe9b6c7aa,
   0xd62f105d, 0x02441453, 0xd8a1e681, 0xe7d3fbc8,
   0x21e1cde6, 0xc33707d6, 0xf4d50d87, 0x455a14ed,
   0xa9e3e905, 0xfcefa3f8, 0x676f02d9, 0x8d2a4c8a,
   0xfffa3942, 0x8771f681, 0x6d9d6122, 0xfde5380c,
   0xa4beea44, 0x4bdecfa9, 0xf6bb4b60, 0xbebfbc70,
   0x289b7ec6, 0xeaa127fa, 0xd4ef3085, 0x04881d05,
   0xd9d4d039, 0xe6db99e5, 0x1fa27cf8, 0xc4ac5665,
   0xf4292244, 0x432aff97, 0xab9423a7, 0xfc93a039,
   0x655b59c3, 0x8f0ccc92, 0xffeff47d, 0x85845dd1,
   0x6fa87e4f, 0xfe2ce6e0, 0xa3014314, 0x4e0811a1,
   0xf7537e82, 0xbd3af235, 0x2ad7d2bb, 0xeb86d391]

/-- Per-round left-rotation amounts `s[0..63]` of MD5. -/
def md5S : List Nat :=
  [7, 12, 17, 22, 7, 12, 17, 22, 7, 12, 17, 22, 7, 12, 17, 22,
   5, 9, 14, 20, 5, 9, 14, 20, 5, 9, 14, 20, 5, 9, 14, 20,
   4, 11, 16, 23, 4, 11, 16, 23, 4, 11, 16, 23, 4, 11, 16, 23,
   6, 10, 15, 21, 6, 10, 15, 21, 6, 10, 15, 21, 6, 10, 15, 21]

/-- Rotation left by `s` bits on a 32-bit `Nat`. -/
def rotl32 (x s : Nat) : Nat := ((x <<< s) + (x >>> (32 - s))) % 2 ^ 32

/-- Bitwise complement on a 32-bit word. -/
def not32 (x : Nat) : Nat := x ^^^ 0xffffffff

/-- One of the 64 MD5 rounds: state `(A, B, C, D)`, message words `M`. -/
def md5Round (M : List Nat) (st : Nat × Nat × Nat × Nat) (i : Nat) :
    Nat × Nat × Nat × Nat :=
  let A := st.1; let B := st.2.1; let C := st.2.2.1; let D := st.2.2.2
  let fg : Nat × Nat :=
    if i < 16 then ((B &&& C) ||| (not32 B &&& D), i)
    else if i < 32 then ((D &&& B) ||| (not32 D &&& C), (5 * i + 1) % 16)
    else if i < 48 then (B ^^^ C ^^^ D, (3 * i + 5) % 16)
    else (C ^^^ (B ||| not32 D), (7 * i) % 16)
  let f := (fg.1 + A + md5K.getD i 0 + M.getD fg.2 0) % 2 ^ 32
  (D, (B + rotl32 f (md5S.getD i 0)) % 2 ^ 32, B, C)

/-- Split a 64-byte chunk into 16 little-endian 32-bit words. -/
def bytesToWords : List Nat → List Nat
  | b0 :: b1 :: b2 :: b3 :: rest =>
      (b0 + 256 * b1 + 65536 * b2 + 16777216 * b3) :: bytesToWords rest
  | _ => []

/-- Split the padded message into 64-byte chunks (`fuel` bounds the chunk
count; every call passes `fuel = l.length`, which always suffices because
each step consumes at least one byte). -/
def chunks64Fuel : Nat → List Nat → List (List Nat)
  | 0, _ => []
  | _ + 1, [] => []
  | fuel + 1, l => l.take 64 :: chunks64Fuel fuel (l.drop 64)

/-- Split the padded message into 64-byte chunks. -/
def chunks64 (l : List Nat) : List (List Nat) := chunks64Fuel l.length l

/-- MD5 padding: `0x80`, zeros to 56 mod 64, 64-bit little-endian bit length. -/
def md5Pad (msg : List Nat) : List Nat :=
  let z := (120 - (msg.length + 1) % 64) % 64
  let bitLen := (8 * msg.length) % 2 ^ 64
  msg ++ [0x80] ++ List.replicate z 0 ++
    [bitLen % 256, bitLen / 2 ^ 8 % 256, bitLen / 2 ^ 16 % 256,
     bitLen / 2 ^ 24 % 256, bitLen / 2 ^ 32 % 256, bitLen / 2 ^ 40 % 256,
     bitLen / 2 ^ 48 % 256, bitLen / 2 ^ 56 % 256]

/-- Little-endian byte decomposition of a 32-bit word. -/
def wordLE (x : Nat) : List Nat :=
  [x % 256, x / 256 % 256, x / 65536 % 256, x / 16777216 % 256]

/-- MD5 digest (16 bytes) of a byte string. -/
def md5 (msg : List Nat) : List Nat :=
  let step : Nat × Nat × Nat × Nat → List Nat → Nat × Nat × Nat × Nat :=
    fun st chunk =>
      let M := bytesToWords chunk
      let r := (List.range 64).foldl (md5Round M) st
      ((st.1 + r.1) % 2 ^ 32, (st.2.1 + r.2.1) % 2 ^ 32,
       (st.2.2.1 + r.2.2.1) % 2 ^ 32, (st.2.2.2 + r.2.2.2) % 2 ^ 32)
  let fin := (chunks64 (md5Pad msg)).foldl step
    (0x67452301, 0xefcdab89, 0x98badcfe, 0x10325476)
  wordLE fin.1 ++ wordLE fin.2.1 ++ wordLE fin.2.2.1 ++ wordLE fin.2.2.2

/-- Lowercase hexadecimal digit. -/
def hexDigit (n : Nat) : Char :=
  ("0123456789abcdef".data).getD n 'x'

/-- Source `'%02x'` rendering of one byte. -/
def hexByte (b : Nat) : List Char := [hexDigit (b / 16 % 16), hexDigit (b % 16)]

/-- Source `hashlib.md5(bytes).hexdigest()`. -/
def md5Hex (msg : List Nat) : String :=
  String.mk ((md5 msg).map hexByte).flatten

/-- UTF-8 encoding of one character (`str.encode('utf-8')`). -/
def charUtf8 (c : Char) : List Nat :=
  let n := c.toNat
  if n < 0x80 then [n]
  else if n < 0x800 then [0xC0 + n / 64, 0x80 + n % 64]
  else if n < 0x10000 then [0xE0 + n / 4096, 0x80 + n / 64 % 64, 0x80 + n % 64]
  else [0xF0 + n / 262144, 0x80 + n / 4096 % 64, 0x80 + n / 64 % 64,
        0x80 + n % 64]

/-- Source `str.encode('utf-8')` as a byte list. -/
def utf8Bytes (s : String) : List Nat := (s.data.map charUtf8).flatten

/-! ### `hash_generator.py` -/

/-- Collapse every whitespace run to a single `' '`
(`re.sub(r'\s+', ' ', ·)` on an already-stripped string): each maximal
whitespace run contributes one `' '`, emitted at the run's last
character. -/
def collapseWS : List Char → List Char
  | [] => []
  | [c] => if pySpace c then [' '] else [c]
  | c :: d :: rest =>
      if pySpace c then
        if pySpace d then collapseWS (d :: rest)
        else ' ' :: collapseWS (d :: rest)
      else c :: collapseWS (d :: rest)

/-- Source `normalize_whitespace`: strip, then collapse internal whitespace runs. -/
def normalize_whitespace (text : String) : String :=
  if text = "" then ""
  else String.mk (collapseWS (pyStripList text.data))

/-- Source `generate_hash_key`: normalize and lower-case the three identity fields,
raise `ValueError` (modelled as `.error`) when any normalizes to empty,
otherwise MD5 the `'|'`-joined composite key. -/
def generate_hash_key (company job_title location : String) :
    Except String String :=
  let company_norm := lowerStr (normalize_whitespace company)
  let title_norm := lowerStr (normalize_whitespace job_title)
  let location_norm := lowerStr (normalize_whitespace location)
  if company_norm = "" then .error "Company name cannot be empty"
  else if title_norm = "" then .error "Job title cannot be empty"
  else if location_norm = "" then .error "Location cannot be empty"
  else
    let composite_key := company_norm ++ "|" ++ title_norm ++ "|" ++ location_norm
    .ok (md5Hex (utf8Bytes composite_key))

/-! ### `normalize.py` -/

/-- A value of the raw provider dictionary (`raw_data[key]`): Python `None`,
`str`, `int`/`float` (as `ℚ`), `list[str]`, or a native `datetime`
(modelled as epoch seconds). A missing key reads as `vnone`, exactly like
`dict.get`. -/
inductive JVal where
  | vnone
  | vstr (s : String)
  | vnum (q : ℚ)
  | vlist (l : List String)
  | vtime (t : Int)
deriving DecidableEq, Repr

/-- Source `VALID_REMOTE_TYPES`. -/
def VALID_REMOTE_TYPES : List String :=
  ["remote", "hybrid", "onsite", "unknown"]

/-- Source `VALID_CONTRACT_TYPES`. -/
def VALID_CONTRACT_TYPES : List String :=
  ["full_time", "part_time", "contract", "intern", "temp", "unknown"]

/-- Source `VALID_COMPANY_SIZES`. -/
def VALID_COMPANY_SIZES : List String :=
  ["1-10", "11-50", "51-200", "201-500", "501-1000", "1001-5000", "5001+",
   "unknown"]

/-- Digits-to-number accumulator for `parseFloat?`. -/
def natVal (l : List Char) : Nat :=
  l.foldl (fun acc c => 10 * acc + (c.toNat - '0'.toNat)) 0

/-- Unsigned decimal (`digits`, `digits.digits`, `digits.`, `.digits`). -/
def parseUnsigned? (l : List Char) : Option ℚ :=
  let intPart := l.takeWhile Char.isDigit
  let rest := l.dropWhile Char.isDigit
  match rest with
  | [] => if intPart = [] then none else some (natVal intPart : ℚ)
  | '.' :: fr =>
      if fr.all Char.isDigit && !(intPart = [] && fr = []) then
        some ((natVal intPart : ℚ) + (natVal fr : ℚ) / (10 : ℚ) ^ fr.length)
      else none
  | _ => none

/-- Python `float(str)` on the plain decimal fragment: surrounding
whitespace stripped, optional sign, integer/fraction digits. Exponent,
`inf` and `nan` spellings are outside the modelled fragment (no claim
depends on which strings parse, only on the parsed value). -/
def parseFloat? (s : String) : Option ℚ :=
  match pyStripList s.data with
  | [] => none
  | c :: rest =>
      if c = '-' then (parseUnsigned? rest).map (fun q => -q)
      else if c = '+' then parseUnsigned? rest
      else parseUnsigned? (c :: rest)

/-- Source `_parse_numeric`: numbers pass through, numeric strings are parsed,
anything else (including parse failures) yields `None`. -/
def parse_numeric : JVal → Option ℚ
  | .vnum q => some q
  | .vstr s => parseFloat? s
  | _ => none

/-- Source `_safe_string`: `None` stays `None`, strings are stripped and emptied
to `None`, other types go through `str(·)` (rendering modelled by
`toString`; no claim inspects these renderings). -/
def safe_string : JVal → Option String
  | .vnone => none
  | .vstr s => let t := pyStrip s; if t = "" then none else some t
  | .vnum q => some (toString q)
  | .vlist l => some (toString l)
  | .vtime t => some (toString t)

/-- Source `_normalize_enum`: `None`/`''` and non-strings fall back to the
default, otherwise lower-case + strip and check membership in the closed
set. -/
def normalize_enum (value : JVal) (valid : List String) (dflt : String) :
    String :=
  match value with
  | .vstr s =>
      if s = "" then dflt
      else
        let n := pyStrip (lowerStr s)
        if valid.contains n then n else dflt
  | _ => dflt

/-- Source `_parse_timestamp`: native instants pass through, epoch numbers are
taken at whole seconds, and the ISO-8601 string path is conservatively
modelled as unparseable (in the source a failed parse also returns `None`
and never raises; `posted_at` is passed through untouched, so no claim
depends on which strings parse). -/
def parse_timestamp : JVal → Option Int
  | .vtime t => some t
  | .vnum q => some ⌊q⌋
  | _ => none

/-- The raw provider dictionary, restricted to the keys
`normalize_job_posting` reads. -/
structure RawJob where
  job_title : JVal := .vnone
  company : JVal := .vnone
  location : JVal := .vnone
  remote_type : JVal := .vnone
  contract_type : JVal := .vnone
  company_size : JVal := .vnone
  posted_at : JVal := .vnone
  salary_min : JVal := .vnone
  salary_max : JVal := .vnone
  salary_currency : JVal := .vnone
  description : JVal := .vnone
  skills_raw : JVal := .vnone
  apply_url : JVal := .vnone
  provider_job_id : JVal := .vnone
  job_link : JVal := .vnone
deriving DecidableEq, Repr

/-- The normalized job dictionary returned by `normalize_job_posting`. -/
structure NormalizedJob where
  hash_key : String
  provider_job_id : Option String
  job_link : Option String
  job_title : String
  company : String
  company_size : String
  location : String
  remote_type : String
  contract_type : String
  salary_min : Option ℚ
  salary_max : Option ℚ
  salary_currency : Option String
  description : Option String
  skills_raw : Option (List String)
  posted_at : Option Int
  apply_url : Option String
  source : String
deriving DecidableEq, Repr

/-- A required field passes `if not x or not isinstance(x, str)` exactly
when it is a non-empty string. -/
def reqStr : JVal → Option String
  | .vstr s => if s = "" then none else some s
  | _ => none

/-- Source `normalize_job_posting`: validate the three required fields, derive the
fingerprint, normalize enums, parse salary bounds (swapping when
`min > max`), and assemble the canonical record.
`NormalizationError` is modelled as `.error`. -/
def normalize_job_posting (raw : RawJob) (source : String) :
    Except String NormalizedJob :=
  match reqStr raw.job_title with
  | none => .error "job_title is required and must be a non-empty string"
  | some job_title =>
  match reqStr raw.company with
  | none => .error "company is required and must be a non-empty string"
  | some company =>
  match reqStr raw.location with
  | none => .error "location is required and must be a non-empty string"
  | some location =>
  match generate_hash_key company job_title location with
  | .error e => .error ("Failed to generate hash key: " ++ e)
  | .ok hash_key =>
    let remote_type := normalize_enum raw.remote_type VALID_REMOTE_TYPES "unknown"
    let contract_type :=
      normalize_enum raw.contract_type VALID_CONTRACT_TYPES "unknown"
    let company_size :=
      normalize_enum raw.company_size VALID_COMPANY_SIZES "unknown"
    let posted_at := parse_timestamp raw.posted_at
    let smin := parse_numeric raw.salary_min
    let smax := parse_numeric raw.salary_max
    let bounds : Option ℚ × Option ℚ :=
      match smin, smax with
      | some a, some b => if a > b then (some b, some a) else (some a, some b)
      | x, y => (x, y)
    .ok
      { hash_key := hash_key
        provider_job_id := safe_string raw.provider_job_id
        job_link := safe_string raw.job_link
        job_title := pyStrip job_title
        company := pyStrip company
        company_size := company_size
        location := pyStrip location
        remote_type := remote_type
        contract_type := contract_type
        salary_min := bounds.1
        salary_max := bounds.2
        salary_currency := safe_string raw.salary_currency
        description := safe_string raw.description
        skills_raw :=
          match raw.skills_raw with
          | .vlist l => some l
          | _ => none
        posted_at := posted_at
        apply_url := safe_string raw.apply_url
        source := source }

/-! ### `db_operations.py` — `upsert_staging_job` -/

/-- One row of `staging.job_postings_stg`. -/
structure StagedRow where
  hash_key : String
  provider_job_id : Option String
  job_link : Option String
  job_title : String
  company : String
  company_size : Option String
  location : String
  remote_type : Option String
  contract_type : Option String
  salary_min : Option ℚ
  salary_max : Option ℚ
  salary_currency : Option String
  description : Option String
  skills_raw : Option (List String)
  posted_at : Option Int
  apply_url : Option String
  source : String
  first_seen_at : Int
  last_seen_at : Int
deriving DecidableEq, Repr

/-- The bound parameters of the upsert statement (any dictionary may be
bound, so every nullable column is an `Option`). -/
structure UpsertJob where
  hash_key : String
  provider_job_id : Option String
  job_link : Option String
  job_title : String
  company : String
  company_size : Option String
  location : String
  remote_type : Option String
  contract_type : Option String
  salary_min : Option ℚ
  salary_max : Option ℚ
  salary_currency : Option String
  description : Option String
  skills_raw : Option (List String)
  posted_at : Option Int
  apply_url : Option String
  source : String
deriving DecidableEq, Repr

/-- SQL `COALESCE(a, b)` on two nullable values. -/
def coalesce {α : Type} : Option α → Option α → Option α
  | some v, _ => some v
  | none, b => b

/-- The staging table, keyed by fingerprint (uniqueness of `hash_key` is a
storage invariant, so one `Option` row per key). -/
def Store : Type := String → Option StagedRow

/-- Source `upsert_staging_job`: `INSERT ... ON CONFLICT (hash_key) DO UPDATE`.
On a fresh fingerprint every column is taken from the new record and
`first_seen_at = last_seen_at = NOW()`; on conflict `last_seen_at` is
advanced, `job_title` / `company` / `location` / `source` are overwritten,
and every other column is `COALESCE(EXCLUDED.col, old.col)`.
Returns the updated table and the `RETURNING hash_key` value. -/
def upsert_staging_job (store : Store) (job : UpsertJob) (now : Int) :
    Store × String :=
  let newRow : StagedRow :=
    match store job.hash_key with
    | none =>
        { hash_key := job.hash_key
          provider_job_id := job.provider_job_id
          job_link := job.job_link
          job_title := job.job_title
          company := job.company
          company_size := job.company_size
          location := job.location
          remote_type := job.remote_type
          contract_type := job.contract_type
          salary_min := job.salary_min
          salary_max := job.salary_max
          salary_currency := job.salary_currency
          description := job.description
          skills_raw := job.skills_raw
          posted_at := job.posted_at
          apply_url := job.apply_url
          source := job.source
          first_seen_at := now
          last_seen_at := now }
    | some old =>
        { hash_key := old.hash_key
          first_seen_at := old.first_seen_at
          last_seen_at := now
          provider_job_id := coalesce job.provider_job_id old.provider_job_id
          job_link := coalesce job.job_link old.job_link
          job_title := job.job_title
          company := job.company
          company_size := coalesce job.company_size old.company_size
          location := job.location
          remote_type := coalesce job.remote_type old.remote_type
          contract_type := coalesce job.contract_type old.contract_type
          salary_min := coalesce job.salary_min old.salary_min
          salary_max := coalesce job.salary_max old.salary_max
          salary_currency := coalesce job.salary_currency old.salary_currency
          description := coalesce job.description old.description
          skills_raw := coalesce job.skills_raw old.skills_raw
          posted_at := coalesce job.posted_at old.posted_at
          apply_url := coalesce job.apply_url old.apply_url
          source := job.source }
  (fun k => if k = job.hash_key then some newRow else store k, job.hash_key)

/-! ### `config_loader.py` — ranking configuration -/

/-- Source `RankingWeights`. -/
structure RankingWeights where
  title_keywords : ℚ
  skills_overlap : ℚ
  location_proximity : ℚ
  salary_band : ℚ
  employment_type : ℚ
  seniority_match : ℚ
  remote_type : ℚ
  company_size : ℚ
deriving DecidableEq, Repr

/-- Source `SalaryTarget`. -/
structure SalaryTarget where
  min : ℚ
  max : ℚ
deriving DecidableEq, Repr

/-- Source `UserProfile` (the fields `calculate_rank` reads). -/
structure UserProfile where
  title_keywords : List String
  must_have_skills : List String
  nice_to_have_skills : List String
  location_home : String
  salary_target_cad : SalaryTarget
  preferred_remote : List String
  preferred_contracts : List String
  seniority : List String
  preferred_company_sizes : List String
deriving DecidableEq, Repr

/-- Source `RankingConfig`. -/
structure RankingConfig where
  weights : RankingWeights
  profile : UserProfile
deriving DecidableEq, Repr

/-- A `marts.fact_jobs` row as read by `calculate_rank`. A key that is
missing and a key that is present with value `None` are both modelled as
`none`: every accessor in `calculate_rank` sends the two through code
paths with identical results (Python falsiness / explicit `'unknown'`
defaults). -/
structure Job where
  job_title_std : Option String := none
  skills : Option (List String) := none
  location_std : Option String := none
  salary_min_norm : Option ℚ := none
  salary_max_norm : Option ℚ := none
  remote_type : Option String := none
  contract_type : Option String := none
  seniority_level : Option String := none
  company_size : Option String := none
deriving DecidableEq, Repr

/-- Python's substring containment `needle in hay` on character lists. -/
def containsSub (needle : List Char) : List Char → Bool
  | [] => needle.isEmpty
  | c :: rest => needle.isPrefixOf (c :: rest) || containsSub needle rest

/-! ### `scoring.py` -/

/-- Source `calculate_title_score`: fraction of configured keywords occurring
case-insensitively as substrings of the title. -/
def calculate_title_score (job_title : String) (title_keywords : List String) :
    ℚ :=
  if job_title = "" || title_keywords = [] then 0
  else
    let jt := (lowerStr job_title).data
    let nMatches :=
      title_keywords.countP (fun k => containsSub ((lowerStr k).data) jt)
    (nMatches : ℚ) / (title_keywords.length : ℚ)

/-- Source `calculate_skills_score`: empty extracted skill set scores `0`; a
missing must-have floors the score at `0.1`; otherwise `0.8` when no
nice-to-haves are configured, else `0.5 + 0.5 ×` nice-to-have fraction. -/
def calculate_skills_score (job_skills must_have_skills
    nice_to_have_skills : List String) : ℚ :=
  if job_skills = [] then 0
  else
    let jl := job_skills.map lowerStr
    let ml := must_have_skills.map lowerStr
    let nl := nice_to_have_skills.map lowerStr
    let must_have_matches := ml.countP (fun s => jl.contains s)
    if must_have_matches < ml.length then 1 / 10
    else
      let nice_to_have_matches := nl.countP (fun s => jl.contains s)
      if nl = [] then 4 / 5
      else 1 / 2 + 1 / 2 * ((nice_to_have_matches : ℚ) / (nl.length : ℚ))

/-- Source `calculate_location_score`: exact case-insensitive match `1.0`, same
leading comma-segment `0.7`, a `"remote"` marker `0.5`, else `0.0`. -/
def calculate_location_score (location location_home : String) : ℚ :=
  if location = "" || location_home = "" then 0
  else if lowerStr location = lowerStr location_home then 1
  else
    let location_parts := (lowerStr location).splitOn ","
    let home_parts := (lowerStr location_home).splitOn ","
    if pyStrip (location_parts.headD "") = pyStrip (home_parts.headD "") then
      7 / 10
    else if containsSub "remote".data (lowerStr location).data then 1 / 2
    else 0

/-- Python truthiness of an optional number (`None` and `0` are falsy) —
the guards of `calculate_salary_score` are written with `and`/`if` on
these values. -/
def truthy : Option ℚ → Bool
  | none => false
  | some q => q ≠ 0

/-- The `salary_avg` selection of `calculate_salary_score` (and the
claim's “compensation midpoint”): average when both bounds are usable,
otherwise the single usable bound — the source's `if`/`elif`/`elif`
chain, whose guards are Python truthiness. -/
def salaryMidpoint (salary_min salary_max : Option ℚ) : ℚ :=
  if truthy salary_min && truthy salary_max then
    (salary_min.getD 0 + salary_max.getD 0) / 2
  else if truthy salary_min then salary_min.getD 0
  else salary_max.getD 0

/-- Source `calculate_salary_score`: neutral `0.5` without usable compensation
data, `1.0` when the range midpoint lies in the target band, otherwise a
linear taper floored at `0.1`. The taper divides by the band width:
a zero-width band raises `ZeroDivisionError`, modelled as `none`. -/
def calculate_salary_score (salary_min salary_max : Option ℚ)
    (salary_target_min salary_target_max : ℚ) : Option ℚ :=
  if !truthy salary_min && !truthy salary_max then some (1 / 2)
  else
    let salary_avg := salaryMidpoint salary_min salary_max
    if salary_target_min ≤ salary_avg ∧ salary_avg ≤ salary_target_max then
      some 1
    else
      let range_size := salary_target_max - salary_target_min
      if range_size = 0 then none
      else if salary_avg < salary_target_min then
        let penalty := min ((salary_target_min - salary_avg) / range_size) 1
        some (max (1 / 10) (1 - penalty))
      else
        let penalty := min ((salary_avg - salary_target_max) / range_size) 1
        some (max (1 / 10) (1 - penalty))

/-- Source `calculate_remote_score`. -/
def calculate_remote_score (remote_type : String)
    (preferred_remote : List String) : ℚ :=
  if remote_type = "" || remote_type = "unknown" then 1 / 2
  else if (preferred_remote.map lowerStr).contains (lowerStr remote_type) then 1
  else 0

/-- Source `calculate_contract_score`. -/
def calculate_contract_score (contract_type : String)
    (preferred_contracts : List String) : ℚ :=
  if contract_type = "" || contract_type = "unknown" then 1 / 2
  else if (preferred_contracts.map lowerStr).contains (lowerStr contract_type)
  then 1
  else 3 / 10

/-- Source `calculate_seniority_score` (`(seniority_level or "unknown").lower()`:
`None` and `''` both default to `unknown`). -/
def calculate_seniority_score (seniority_level : Option String)
    (seniority_preferences : List String) : ℚ :=
  let base := match seniority_level with
    | none => "unknown"
    | some s => if s = "" then "unknown" else s
  let level := lowerStr base
  if level = "unknown" then 1 / 2
  else if (seniority_preferences.map lowerStr).contains level then 1
  else 3 / 10

/-- Source `calculate_company_size_score` (membership test is case-sensitive in
the source). -/
def calculate_company_size_score (company_size : String)
    (preferred_sizes : List String) : ℚ :=
  if company_size = "" || company_size = "unknown" then 1 / 2
  else if preferred_sizes.contains company_size then 1
  else 7 / 10

/-- Round-half-to-even to an integer (Python `round`'s tie rule). -/
def roundHalfEven (q : ℚ) : ℤ :=
  if q - ⌊q⌋ < 1 / 2 then ⌊q⌋
  else if 1 / 2 < q - ⌊q⌋ then ⌊q⌋ + 1
  else if ⌊q⌋ % 2 = 0 then ⌊q⌋ else ⌊q⌋ + 1

/-- Python `round(x, 2)` on the exact rational value (the binary-float
representation error of CPython floats is below every granularity any
claim distinguishes). -/
def pyRound2 (x : ℚ) : ℚ := (roundHalfEven (x * 100) : ℚ) / 100

/-- Source `calculate_rank`: the eight subscores, their weighted sum scaled to
`0–100`, rounded to two decimals and clamped, paired with the explain
dictionary (an association list in the source's insertion order). The
`ZeroDivisionError` of the salary subscore propagates as `none`. -/
def calculate_rank (job : Job) (config : RankingConfig) :
    Option (ℚ × List (String × ℚ)) :=
  let title_score :=
    calculate_title_score (job.job_title_std.getD "")
      config.profile.title_keywords
  let skills_score :=
    calculate_skills_score (job.skills.getD [])
      config.profile.must_have_skills config.profile.nice_to_have_skills
  let location_score :=
    calculate_location_score (job.location_std.getD "")
      config.profile.location_home
  match calculate_salary_score job.salary_min_norm job.salary_max_norm
      config.profile.salary_target_cad.min
      config.profile.salary_target_cad.max with
  | none => none
  | some salary_score =>
    let remote_score :=
      calculate_remote_score (job.remote_type.getD "unknown")
        config.profile.preferred_remote
    let contract_score :=
      calculate_contract_score (job.contract_type.getD "unknown")
        config.profile.preferred_contracts
    let seniority_score :=
      calculate_seniority_score job.seniority_level config.profile.seniority
    let company_size_score :=
      calculate_company_size_score (job.company_size.getD "unknown")
        config.profile.preferred_company_sizes
    let weighted_score :=
      config.weights.title_keywords * title_score +
      config.weights.skills_overlap * skills_score +
      config.weights.location_proximity * location_score +
      config.weights.salary_band * salary_score +
      config.weights.employment_type * contract_score +
      config.weights.seniority_match * seniority_score +
      config.weights.remote_type * remote_score +
      config.weights.company_size * company_size_score
    let rank_score := max 0 (min 100 (pyRound2 (weighted_score * 100)))
    some (rank_score,
      [("title_keywords", title_score),
       ("skills_overlap", skills_score),
       ("location_proximity", location_score),
       ("salary_band", salary_score),
       ("employment_type", contract_score),
       ("seniority_match", seniority_score),
       ("remote_type", remote_score),
       ("company_size", company_size_score)])

/-! ### `seniority_extractor.py` -/

/-- Python regex word character `\w` (ASCII fragment). -/
def isWordChar (c : Char) : Bool := c.isAlphanum || c = '_'

/-- A match of pattern `w` at index `i` of `s` with `\b` on both sides
(all embedded patterns start and end with word characters; interior
characters, such as the `-` of `mid-level`, match literally). -/
def wordAt (w s : List Char) (i : Nat) : Bool :=
  w.isPrefixOf (s.drop i) &&
  (i = 0 || !isWordChar (s.getD (i - 1) ' ')) &&
  (s.drop (i + w.length) = [] || !isWordChar ((s.drop (i + w.length)).headD ' '))

/-- Source `re.search(r"\b<w>\b", s)` viewed as a Boolean. -/
def containsWord (w s : List Char) : Bool :=
  (List.range (s.length + 1)).any (wordAt w s)

/-- The group `([4-9]|[1-9][0-9]+)` followed by `\b`, tried at the digit
run after an `L` at index `i` whose left side is a `\b`. Note the pattern
letter is an upper-case `L` while `re.search` receives the lower-cased
title, so on reachable inputs this never fires (see the `C7` theorem). -/
def levelCodeAt (s : List Char) (i : Nat) : Option Nat :=
  if s.getD i ' ' = 'L' && (i = 0 || !isWordChar (s.getD (i - 1) ' ')) then
    let tail := s.drop (i + 1)
    let ds := tail.takeWhile Char.isDigit
    let rest := tail.dropWhile Char.isDigit
    if !ds.isEmpty && (rest.isEmpty || !isWordChar (rest.headD ' ')) &&
        ((ds.length = 1 && decide ('4' ≤ ds.headD '0')) ||
          (2 ≤ ds.length && ds.headD '0' ≠ '0')) then
      some (natVal ds)
    else none
  else none

/-- Source `re.search(r"\bL([4-9]|[1-9][0-9]+)\b", ·)`: leftmost match value. -/
def findLevelCode (s : List Char) : Option Nat :=
  (List.range s.length).findSome? (levelCodeAt s)

/-- The keyword stages that follow the level-code check: executive
patterns, the internship pattern, then the per-level tables in order
senior → intermediate → junior. `\bsr\.?\b` and `\bjr\.?\b` match exactly
when `\bsr\b` / `\bjr\b` do (a `'.'` after the abbreviation is itself a
non-word character, so the optional dot never changes match existence). -/
def seniorityKeywordScan (s : List Char) : String :=
  if containsWord "chief".data s || containsWord "vp".data s ||
      containsWord "vice president".data s || containsWord "head of".data s ||
      containsWord "director".data s || containsWord "manager".data s ||
      containsWord "advanced".data s then "senior"
  else if containsWord "intern".data s then "junior"
  else if containsWord "senior".data s || containsWord "sr".data s ||
      containsWord "lead".data s || containsWord "principal".data s ||
      containsWord "staff".data s || containsWord "architect".data s then
    "senior"
  else if containsWord "intermediate".data s ||
      containsWord "mid-level".data s || containsWord "mid level".data s ||
      containsWord "mid".data s then "intermediate"
  else if containsWord "junior".data s || containsWord "jr".data s ||
      containsWord "associate".data s || containsWord "entry-level".data s ||
      containsWord "entry level".data s || containsWord "entry".data s then
    "junior"
  else "unknown"

/-- Source `extract_seniority_level`: the ordered rule cascade on the lower-cased
title — Roman numeral patterns III / II / I, the `L<n>` level-code regex,
then `seniorityKeywordScan`. The source tests `" iii"` twice in the first
cascade; the duplicate is kept. -/
def extract_seniority_level (job_title : String) : String :=
  if job_title = "" then "unknown"
  else
    let s := (lowerStr job_title).data
    let inS := fun (t : String) => containsSub t.data s
    let startsS := fun (t : String) => t.data.isPrefixOf s
    let endsS := fun (t : String) => t.data.reverse.isPrefixOf s.reverse
    if inS " iii" || inS "level iii" || startsS "iii" || endsS " iii" ||
        inS " iii," || inS " iii)" || inS " iii/" || inS "engineer iii" ||
        inS " iii" then "senior"
    else if inS " ii " || inS "level ii" || startsS "ii " || endsS " ii" ||
        inS " ii," || inS " ii)" || inS " ii/" || inS "engineer ii" then
      "intermediate"
    else if inS "level i" || inS " i " || startsS "i " || endsS " i" ||
        inS " i," || inS " i)" || inS " i/" || inS "engineer i " ||
        inS "engineer i)" then "junior"
    else
      match findLevelCode s with
      | some n =>
          if 5 ≤ n then "senior"
          else if n = 4 then "intermediate"
          else seniorityKeywordScan s
      | none => seniorityKeywordScan s

/-! ### Whitespace-token analysis (specification side)

The spec's notion of a “case / whitespace variant” of a string: two
strings are variants exactly when they carry the same sequence of maximal
non-whitespace runs up to letter case. Case changes keep every character's
whitespace status, and adding leading / trailing whitespace or collapsing
an internal whitespace run keeps the run sequence, so all three
spec-listed variations preserve `lowerTokens`. -/

/-- Non-whitespace characters. -/
def nonWS (c : Char) : Bool := !pySpace c

/-- The maximal non-whitespace runs of a character list, in order. -/
def wsTokens : List Char → List (List Char)
  | [] => []
  | c :: rest =>
      if pySpace c then wsTokens rest
      else
        (c :: rest).takeWhile nonWS :: wsTokens ((c :: rest).dropWhile nonWS)
termination_by l => l.length
decreasing_by
  · simp
  · rename_i h
    rw [List.dropWhile_cons]
    simp only [nonWS, h, Bool.not_false, if_true, List.length_cons]
    exact Nat.lt_succ_of_le (List.dropWhile_sublist _).length_le

/-- Join tokens with single spaces. -/
def joinSp : List (List Char) → List Char
  | [] => []
  | [t] => t
  | t :: ts => t ++ ' ' :: joinSp ts

/-- The case-folded token sequence of a string — the complete invariant of
the fingerprint's text normalization. -/
def lowerTokens (s : String) : List (List Char) :=
  (wsTokens s.data).map (List.map Char.toLower)

/-- Lowercase-hex-digit test (the digest alphabet of `hexdigest()`). -/
def isHexDigitChar (c : Char) : Bool := c.isDigit || ('a' ≤ c && c ≤ 'f')

/-- Merge-rule shape for one optional column: the new value wins when
non-null, and the stored value is preserved otherwise. -/
def keepsOrOverwrites {α : Type} (newv oldv resv : Option α) : Prop :=
  (newv = none → resv = oldv) ∧ ∀ v, newv = some v → resv = some v

/-! ### Concrete fixtures (used by witnesses and counterexamples) -/

/-- A stored staging row under fingerprint `"k1"`. -/
def oldRowC1 : StagedRow :=
  { hash_key := "k1", provider_job_id := some "p-old", job_link := none,
    job_title := "Old Title", company := "Old Co",
    company_size := some "11-50", location := "Old Loc", remote_type := none,
    contract_type := some "full_time", salary_min := some 1,
    salary_max := none, salary_currency := some "CAD", description := none,
    skills_raw := some ["python"], posted_at := some 10, apply_url := none,
    source := "old", first_seen_at := 1, last_seen_at := 2 }

/-- A later observation of the same fingerprint. -/
def jobC1 : UpsertJob :=
  { hash_key := "k1", provider_job_id := none, job_link := some "link2",
    job_title := "New Title", company := "New Co", company_size := none,
    location := "New Loc", remote_type := some "remote",
    contract_type := none, salary_min := some 2, salary_max := some 3,
    salary_currency := none, description := some "desc", skills_raw := none,
    posted_at := none, apply_url := some "app", source := "new" }

/-- A staging table holding exactly `oldRowC1`. -/
def storeC1 : Store := fun k => if k = "k1" then some oldRowC1 else none

/-- The default weight vector of `config_loader.RankingWeights`. -/
def weightsDefault : RankingWeights :=
  { title_keywords := 1 / 4, skills_overlap := 3 / 10,
    location_proximity := 1 / 10, salary_band := 3 / 20,
    employment_type := 1 / 20, seniority_match := 7 / 100,
    remote_type := 1 / 25, company_size := 1 / 25 }

/-- A profile whose salary target band has zero width. -/
def profileZeroBand : UserProfile :=
  { title_keywords := [], must_have_skills := [], nice_to_have_skills := [],
    location_home := "", salary_target_cad := ⟨50000, 50000⟩,
    preferred_remote := [], preferred_contracts := [], seniority := [],
    preferred_company_sizes := [] }

/-- A ranking configuration with a zero-width salary band. -/
def cfgZeroBand : RankingConfig := ⟨weightsDefault, profileZeroBand⟩

/-- A well-formed profile (positive-width band). -/
def profileC3 : UserProfile :=
  { title_keywords := ["data"], must_have_skills := ["python"],
    nice_to_have_skills := ["go"], location_home := "Montreal, QC",
    salary_target_cad := ⟨40000, 60000⟩, preferred_remote := ["remote"],
    preferred_contracts := ["full_time"], seniority := ["senior"],
    preferred_company_sizes := ["51-200"] }

/-- A well-formed ranking configuration. -/
def cfgC3 : RankingConfig := ⟨weightsDefault, profileC3⟩

/-- A fact row whose only populated compensation bound lies outside a
zero-width band. -/
def jobSalaryOnly : Job := { salary_min_norm := some 60000 }

/-- A raw record whose parsed compensation bounds arrive inverted
(`salary_min` numeric `100000`, `salary_max` the numeric string
`"50000"`). -/
def rawC9 : RawJob :=
  { job_title := .vstr "Data Engineer", company := .vstr "Acme Corp",
    location := .vstr "Montreal, QC", salary_min := .vnum 100000,
    salary_max := .vstr "50000" }

/-- The canonical record `normalize_job_posting` produces for `rawC9`. -/
def outC9 : NormalizedJob :=
  { hash_key := "846a0d2199ba90faf86277cfd8db7487", provider_job_id := none,
    job_link := none, job_title := "Data Engineer", company := "Acme Corp",
    company_size := "unknown", location := "Montreal, QC",
    remote_type := "unknown", contract_type := "unknown",
    salary_min := some 50000, salary_max := some 100000,
    salary_currency := none, description := none, skills_raw := none,
    posted_at := none, apply_url := none, source := "jsearch" }

/-! ## Supporting lemmas -/

theorem mem_of_getLast?_eq {l : List Char} {c : Char}
    (h : l.getLast? = some c) : c ∈ l := by
  induction l with
  | nil => simp at h
  | cons a t ih =>
      cases t with
      | nil => simp_all
      | cons b t2 =>
          rw [List.getLast?_cons_cons] at h
          exact List.mem_cons_of_mem a (ih h)

theorem head?_dropWhile_not (p : Char → Bool) (l : List Char) (c : Char)
    (h : (l.dropWhile p).head? = some c) : p c = false := by
  induction l with
  | nil => simp [List.dropWhile] at h
  | cons a t ih =>
      rw [List.dropWhile_cons] at h
      by_cases hp : p a = true
      · rw [if_pos hp] at h; exact ih h
      · rw [if_neg hp] at h
        simp only [List.head?_cons, Option.some.injEq] at h
        subst h
        simpa using hp

theorem takeWhile_nonWS_of_all_ws (t : List Char)
    (ht : ∀ c ∈ t, pySpace c = true) : t.takeWhile nonWS = [] := by
  cases t with
  | nil => rfl
  | cons d t2 =>
      rw [List.takeWhile_cons]
      have : pySpace d = true := ht d (by simp)
      simp [nonWS, this]

theorem dropWhile_nonWS_of_all_ws (t : List Char)
    (ht : ∀ c ∈ t, pySpace c = true) : t.dropWhile nonWS = t := by
  cases t with
  | nil => rfl
  | cons d t2 =>
      rw [List.dropWhile_cons]
      have : pySpace d = true := ht d (by simp)
      simp [nonWS, this]

theorem takeWhile_nonWS_append (t : List Char)
    (ht : ∀ c ∈ t, pySpace c = true) (xs : List Char) :
    (xs ++ t).takeWhile nonWS = xs.takeWhile nonWS := by
  induction xs with
  | nil => simpa using takeWhile_nonWS_of_all_ws t ht
  | cons a xs ih =>
      rw [List.cons_append, List.takeWhile_cons, List.takeWhile_cons]
      by_cases ha : nonWS a = true
      · rw [if_pos ha, if_pos ha, ih]
      · rw [if_neg ha, if_neg ha]

theorem dropWhile_nonWS_append (t : List Char)
    (ht : ∀ c ∈ t, pySpace c = true) (xs : List Char) :
    (xs ++ t).dropWhile nonWS = xs.dropWhile nonWS ++ t := by
  induction xs with
  | nil => simpa using dropWhile_nonWS_of_all_ws t ht
  | cons a xs ih =>
      rw [List.cons_append, List.dropWhile_cons, List.dropWhile_cons]
      by_cases ha : nonWS a = true
      · rw [if_pos ha, if_pos ha, ih]
      · rw [if_neg ha, if_neg ha, List.cons_append]

theorem wsTokens_eq_nil_iff (l : List Char) :
    wsTokens l = [] ↔ ∀ c ∈ l, pySpace c = true := by
  induction l using wsTokens.induct with
  | case1 => simp [wsTokens]
  | case2 c rest hc ih =>
      rw [wsTokens, if_pos hc]
      simp only [List.mem_cons]
      constructor
      · intro h d hd
        rcases hd with hd | hd
        · subst hd; exact hc
        · exact (ih.mp h) d hd
      · intro h
        exact ih.mpr fun d hd => h d (Or.inr hd)
  | case3 c rest hc ih =>
      rw [wsTokens, if_neg hc]
      constructor
      · intro h; exact absurd h (by simp)
      · intro h; exact absurd (h c (by simp)) (by simpa using hc)

theorem wsTokens_dropWhile (l : List Char) :
    wsTokens (l.dropWhile pySpace) = wsTokens l := by
  induction l with
  | nil => rfl
  | cons a t ih =>
      rw [List.dropWhile_cons]
      by_cases ha : pySpace a = true
      · rw [if_pos ha, ih, wsTokens, if_pos ha]
      · rw [if_neg ha]

theorem wsTokens_append_ws (t : List Char)
    (ht : ∀ c ∈ t, pySpace c = true) (l : List Char) :
    wsTokens (l ++ t) = wsTokens l := by
  induction l using wsTokens.induct with
  | case1 => simpa [wsTokens] using (wsTokens_eq_nil_iff t).mpr ht
  | case2 c rest hc ih =>
      rw [List.cons_append, wsTokens, if_pos hc, ih, wsTokens, if_pos hc]
  | case3 c rest hc ih =>
      rw [List.cons_append, wsTokens, if_neg hc, wsTokens, if_neg hc]
      have hdrop : (c :: (rest ++ t)).dropWhile nonWS =
          (c :: rest).dropWhile nonWS ++ t := by
        rw [show c :: (rest ++ t) = (c :: rest) ++ t from rfl]
        exact dropWhile_nonWS_append t ht (c :: rest)
      have htake : (c :: (rest ++ t)).takeWhile nonWS =
          (c :: rest).takeWhile nonWS := by
        rw [show c :: (rest ++ t) = (c :: rest) ++ t from rfl]
        exact takeWhile_nonWS_append t ht (c :: rest)
      rw [htake, hdrop, ih]

theorem wsTokens_pyStrip (l : List Char) :
    wsTokens (pyStripList l) = wsTokens l := by
  unfold pyStripList
  set m := l.dropWhile pySpace with hm
  have hsplit : m = (m.reverse.dropWhile pySpace).reverse ++
      (m.reverse.takeWhile pySpace).reverse := by
    have := List.takeWhile_append_dropWhile (p := pySpace) (l := m.reverse)
    calc m = m.reverse.reverse := by rw [List.reverse_reverse]
    _ = (m.reverse.takeWhile pySpace ++ m.reverse.dropWhile pySpace).reverse := by
          rw [this]
    _ = (m.reverse.dropWhile pySpace).reverse ++
          (m.reverse.takeWhile pySpace).reverse := by
          rw [List.reverse_append]
  have hws : ∀ c ∈ (m.reverse.takeWhile pySpace).reverse, pySpace c = true := by
    intro c hc
    rw [List.mem_reverse] at hc
    exact List.mem_takeWhile_imp hc
  calc wsTokens (m.reverse.dropWhile pySpace).reverse
      = wsTokens ((m.reverse.dropWhile pySpace).reverse ++
          (m.reverse.takeWhile pySpace).reverse) :=
        (wsTokens_append_ws _ hws _).symm
    _ = wsTokens m := by rw [← hsplit]
    _ = wsTokens l := wsTokens_dropWhile l

theorem noTrail_pyStrip (l : List Char) (c : Char)
    (h : (pyStripList l).getLast? = some c) : pySpace c = false := by
  unfold pyStripList at h
  rw [List.getLast?_reverse] at h
  exact head?_dropWhile_not pySpace _ c h

theorem noLead_pyStrip (l : List Char) (c : Char)
    (h : (pyStripList l).head? = some c) : pySpace c = false := by
  have hsplit : l.dropWhile pySpace = pyStripList l ++
      ((l.dropWhile pySpace).reverse.takeWhile pySpace).reverse := by
    unfold pyStripList
    set m := l.dropWhile pySpace
    have := List.takeWhile_append_dropWhile (p := pySpace) (l := m.reverse)
    calc m = m.reverse.reverse := by rw [List.reverse_reverse]
    _ = (m.reverse.takeWhile pySpace ++ m.reverse.dropWhile pySpace).reverse := by
          rw [this]
    _ = (m.reverse.dropWhile pySpace).reverse ++
          (m.reverse.takeWhile pySpace).reverse := by
          rw [List.reverse_append]
  have hne : pyStripList l ≠ [] := by
    intro hnil
    rw [hnil] at h
    simp at h
  have : (l.dropWhile pySpace).head? = some c := by
    rw [hsplit, List.head?_append_of_ne_nil _ hne, h]
  exact head?_dropWhile_not pySpace l c this

theorem joinSp_cons_ne_nil (tk : List Char) (ts : List (List Char))
    (h : ts ≠ []) : joinSp (tk :: ts) = tk ++ ' ' :: joinSp ts := by
  cases ts with
  | nil => exact absurd rfl h
  | cons u us =>
      rw [joinSp]
      simp

theorem joinSp_cons_token (c : Char) (tw : List Char) (ts : List (List Char)) :
    joinSp ((c :: tw) :: ts) = c :: joinSp (tw :: ts) := by
  cases ts with
  | nil => rw [joinSp, joinSp]
  | cons u us =>
      rw [joinSp_cons_ne_nil (c :: tw) (u :: us) (by simp),
          joinSp_cons_ne_nil tw (u :: us) (by simp), List.cons_append]

theorem getLast?_transfer {c : Char} {rest : List Char} (hne : rest ≠ []) :
    (c :: rest).getLast? = rest.getLast? := by
  cases rest with
  | nil => exact absurd rfl hne
  | cons b t => exact List.getLast?_cons_cons

/-- On an input with no trailing whitespace, `collapseWS` produces the
space-joined tokens, with one leading space exactly when the input starts
with whitespace. -/
theorem collapseWS_eq_joinSp (l : List Char)
    (hT : ∀ c, l.getLast? = some c → pySpace c = false) :
    collapseWS l =
      (if pySpace (l.headD 'a') then [' '] else []) ++ joinSp (wsTokens l) := by
  induction l using collapseWS.induct with
  | case1 => simp [collapseWS, wsTokens, joinSp, pySpace]
  | case2 c hc =>
      exact absurd (hT c (by simp)) (by simp [hc])
  | case3 c hc =>
      have hcb : pySpace c = false := by simpa using hc
      rw [collapseWS, if_neg hc]
      have hm : (([c] : List Char).headD 'a') = c := rfl
      rw [hm, hcb]
      rw [wsTokens, if_neg hc]
      simp [wsTokens, nonWS, hcb, joinSp]
  | case4 c d rest hc hd ih =>
      have hT' : ∀ e, (d :: rest).getLast? = some e → pySpace e = false :=
        fun e he => hT e (by rw [List.getLast?_cons_cons]; exact he)
      have hw : wsTokens (c :: d :: rest) = wsTokens (d :: rest) := by
        rw [wsTokens, if_pos hc]
      rw [collapseWS, if_pos hc, if_pos hd, ih hT', hw]
      have hm : ((d :: rest).headD 'a') = d := rfl
      have hm2 : ((c :: d :: rest).headD 'a') = c := rfl
      rw [hm, hm2, hd, hc]
  | case5 c d rest hc hd ih =>
      have hdb : pySpace d = false := by simpa using hd
      have hT' : ∀ e, (d :: rest).getLast? = some e → pySpace e = false :=
        fun e he => hT e (by rw [List.getLast?_cons_cons]; exact he)
      have hw : wsTokens (c :: d :: rest) = wsTokens (d :: rest) := by
        rw [wsTokens, if_pos hc]
      rw [collapseWS, if_pos hc, if_neg hd, ih hT', hw]
      have hm : ((d :: rest).headD 'a') = d := rfl
      have hm2 : ((c :: d :: rest).headD 'a') = c := rfl
      rw [hm, hm2, hdb, hc]
      simp
  | case6 c d rest hc ih =>
      have hcb : pySpace c = false := by simpa using hc
      have hT' : ∀ e, (d :: rest).getLast? = some e → pySpace e = false :=
        fun e he => hT e (by rw [List.getLast?_cons_cons]; exact he)
      have ihr := ih hT'
      have hw : wsTokens (c :: d :: rest) =
          (c :: d :: rest).takeWhile nonWS ::
            wsTokens ((c :: d :: rest).dropWhile nonWS) := by
        rw [wsTokens, if_neg hc]
      rw [collapseWS, if_neg hc, ihr, hw]
      have hm2 : ((c :: d :: rest).headD 'a') = c := rfl
      have hm : ((d :: rest).headD 'a') = d := rfl
      rw [hm, hm2, hcb]
      simp only [Bool.false_eq_true, if_false, List.nil_append]
      by_cases hd : pySpace d = true
      · have htake : (c :: d :: rest).takeWhile nonWS = [c] := by
          rw [List.takeWhile_cons, List.takeWhile_cons]
          simp [nonWS, hcb, hd]
        have hdrop : (c :: d :: rest).dropWhile nonWS = d :: rest := by
          rw [List.dropWhile_cons, List.dropWhile_cons]
          simp [nonWS, hcb, hd]
        rw [htake, hdrop, hd]
        have hwne : wsTokens (d :: rest) ≠ [] := by
          intro hnil
          have hall := (wsTokens_eq_nil_iff (d :: rest)).mp hnil
          obtain ⟨e, he⟩ := Option.isSome_iff_exists.mp
            (List.getLast?_isSome.mpr (show (d : Char) :: rest ≠ [] by simp))
          have := hT' e he
          rw [hall e (mem_of_getLast?_eq he)] at this
          cases this
        rw [joinSp_cons_ne_nil [c] _ hwne]
        simp
      · have hdb : pySpace d = false := by simpa using hd
        have htake : (c :: d :: rest).takeWhile nonWS =
            c :: (d :: rest).takeWhile nonWS := by
          rw [List.takeWhile_cons]
          simp [nonWS, hcb]
        have hdrop : (c :: d :: rest).dropWhile nonWS =
            (d :: rest).dropWhile nonWS := by
          rw [List.dropWhile_cons]
          simp [nonWS, hcb]
        rw [htake, hdrop, hdb]
        rw [joinSp_cons_token]
        have hrest : wsTokens (d :: rest) =
            (d :: rest).takeWhile nonWS :: wsTokens ((d :: rest).dropWhile nonWS) := by
          rw [wsTokens, if_neg hd]
        rw [← hrest]
        simp

/-- Stripping then collapsing yields exactly the space-joined tokens. -/
theorem collapse_pyStrip_eq (l : List Char) :
    collapseWS (pyStripList l) = joinSp (wsTokens l) := by
  rcases hsp : pyStripList l with _ | ⟨d, t⟩
  · have h0 : wsTokens l = [] := by
      rw [← wsTokens_pyStrip l, hsp]
      simp [wsTokens]
    rw [h0]
    simp [collapseWS, joinSp]
  · have hhead : pySpace d = false := noLead_pyStrip l d (by rw [hsp]; rfl)
    have hmain := collapseWS_eq_joinSp (pyStripList l) (noTrail_pyStrip l)
    rw [hsp] at hmain
    rw [hmain]
    have : ((d :: t).headD 'a') = d := rfl
    rw [this, hhead]
    simp only [Bool.false_eq_true, if_false, List.nil_append]
    rw [← hsp, wsTokens_pyStrip]

/-- Source `toLower` distributes over space-joined tokens. -/
theorem map_toLower_joinSp (ts : List (List Char)) :
    (joinSp ts).map Char.toLower = joinSp (ts.map (List.map Char.toLower)) := by
  induction ts using joinSp.induct with
  | case1 => rfl
  | case2 t => rfl
  | case3 t ts hne ih =>
      rw [joinSp_cons_ne_nil t ts hne, List.map_append, List.map_cons]
      have hsp : Char.toLower ' ' = ' ' := by decide
      rw [hsp, ih, List.map_cons]
      rw [joinSp_cons_ne_nil (t.map Char.toLower) (ts.map (List.map Char.toLower))
          (by intro hh; exact hne (List.map_eq_nil_iff.mp hh))]

/-- The case-folded normalized text is fully determined by the case-folded
token sequence. -/
theorem normLower_eq_of_lowerTokens {s t : String}
    (h : lowerTokens s = lowerTokens t) :
    lowerStr (normalize_whitespace s) = lowerStr (normalize_whitespace t) := by
  have key : ∀ u : String, lowerStr (normalize_whitespace u) =
      String.mk (joinSp (lowerTokens u)) := by
    intro u
    have hnorm : normalize_whitespace u =
        String.mk (collapseWS (pyStripList u.data)) := by
      unfold normalize_whitespace
      by_cases hu : u = ""
      · rw [if_pos hu, hu]
        have h1 : collapseWS (pyStripList "".data) = [] := by
          show collapseWS [] = []
          simp [collapseWS]
        rw [h1]
      · rw [if_neg hu]
    rw [hnorm]
    unfold lowerStr lowerTokens
    rw [show (String.mk (collapseWS (pyStripList u.data))).data =
        collapseWS (pyStripList u.data) from rfl]
    rw [collapse_pyStrip_eq, map_toLower_joinSp]
  rw [key s, key t, h]

/-- Capping the penalty at `1` before the `0.1` floor never changes the
taper value. -/
theorem max_taper_min_cap (p : ℚ) :
    max (1 / 10) (1 - min p 1) = max (1 / 10) (1 - p) := by
  rcases le_total p 1 with h | h
  · rw [min_eq_left h]
  · rw [min_eq_right h]
    have h1 : (1 : ℚ) - p ≤ 1 / 10 := by linarith
    rw [max_eq_left (by norm_num : (1 : ℚ) - 1 ≤ 1 / 10), max_eq_left h1]

/-- With a positive-width band the salary subscore never raises. -/
theorem salary_score_isSome_of_lt (smin smax : Option ℚ) (tmin tmax : ℚ)
    (h : tmin < tmax) :
    ∃ q, calculate_salary_score smin smax tmin tmax = some q := by
  have hr : tmax - tmin ≠ 0 := sub_ne_zero.mpr (ne_of_gt h)
  simp only [calculate_salary_score]
  split_ifs with h1 h2 h3 h4 h5 <;> exact ⟨_, rfl⟩

theorem wordLE_lt (x : Nat) : ∀ b ∈ wordLE x, b < 256 := by
  intro b hb
  simp only [wordLE, List.mem_cons, List.not_mem_nil, or_false] at hb
  rcases hb with h | h | h | h <;> subst h <;> omega

theorem md5_bytes_lt (msg : List Nat) : ∀ b ∈ md5 msg, b < 256 := by
  intro b hb
  simp only [md5] at hb
  rcases List.mem_append.mp hb with hb | hb
  · rcases List.mem_append.mp hb with hb | hb
    · rcases List.mem_append.mp hb with hb | hb
      · exact wordLE_lt _ b hb
      · exact wordLE_lt _ b hb
    · exact wordLE_lt _ b hb
  · exact wordLE_lt _ b hb

theorem md5_length (msg : List Nat) : (md5 msg).length = 16 := by
  simp [md5, wordLE]

theorem flatten_hexByte_length (bs : List Nat) :
    ((bs.map hexByte).flatten).length = 2 * bs.length := by
  induction bs with
  | nil => rfl
  | cons b t ih =>
      simp only [List.map_cons, List.flatten_cons, List.length_append, ih,
        List.length_cons]
      simp [hexByte]
      omega

theorem hexDigit_isHex (n : Nat) (h : n < 16) :
    isHexDigitChar (hexDigit n) = true := by
  interval_cases n <;> decide

theorem md5Hex_length (msg : List Nat) : (md5Hex msg).length = 32 := by
  show ((md5 msg).map hexByte).flatten.length = 32
  rw [flatten_hexByte_length, md5_length]

theorem md5Hex_allHex (msg : List Nat) :
    (md5Hex msg).data.all isHexDigitChar = true := by
  rw [List.all_eq_true]
  intro c hc
  have hc2 : c ∈ ((md5 msg).map hexByte).flatten := hc
  rw [List.mem_flatten] at hc2
  obtain ⟨lc, hlc, hcin⟩ := hc2
  rw [List.mem_map] at hlc
  obtain ⟨b, hbmem, hb⟩ := hlc
  subst hb
  have hblt : b < 256 := md5_bytes_lt msg b hbmem
  simp only [hexByte, List.mem_cons, List.not_mem_nil, or_false] at hcin
  rcases hcin with h | h <;> subst h
  · exact hexDigit_isHex _ (Nat.mod_lt _ (by norm_num))
  · exact hexDigit_isHex _ (Nat.mod_lt _ (by norm_num))

theorem coalesce_keepsOrOverwrites {α : Type} (a b : Option α) :
    keepsOrOverwrites a b (coalesce a b) := by
  constructor
  · intro h; subst h; rfl
  · intro v h; subst h; rfl

theorem countP_lt_of_exists_not {p : String → Bool} {l : List String}
    (h : ∃ x ∈ l, p x = false) : l.countP p < l.length := by
  rcases h with ⟨x, hx, hpx⟩
  refine Nat.lt_of_le_of_ne (List.countP_le_length p) ?_
  intro heq
  have := List.countP_eq_length.mp heq x hx
  rw [hpx] at this
  cases this

/-! ## Claims -/

/-- Claim C1: for every upsert of a canonical record whose fingerprint
already exists in the store, `last_seen_at` is set to the current time
while `first_seen_at` is unchanged; `job_title`, `company`, `location` and
`source` are unconditionally overwritten with the new observation's
values; and every other field (`provider_job_id`, `job_link`,
`company_size`, `remote_type`, `contract_type`, `salary_min`,
`salary_max`, `salary_currency`, `description`, `skills_raw`, `posted_at`,
`apply_url`) is written only if the new value is non-null, otherwise the
previously stored value is preserved. -/
theorem upsert_existing_updates_and_merges
    (store : Store) (job : UpsertJob) (old : StagedRow) (now : Int)
    (h : store job.hash_key = some old) :
    ∃ r, (upsert_staging_job store job now).1 job.hash_key = some r ∧
      r.last_seen_at = now ∧
      r.first_seen_at = old.first_seen_at ∧
      r.job_title = job.job_title ∧
      r.company = job.company ∧
      r.location = job.location ∧
      r.source = job.source ∧
      keepsOrOverwrites job.provider_job_id old.provider_job_id
        r.provider_job_id ∧
      keepsOrOverwrites job.job_link old.job_link r.job_link ∧
      keepsOrOverwrites job.company_size old.company_size r.company_size ∧
      keepsOrOverwrites job.remote_type old.remote_type r.remote_type ∧
      keepsOrOverwrites job.contract_type old.contract_type r.contract_type ∧
      keepsOrOverwrites job.salary_min old.salary_min r.salary_min ∧
      keepsOrOverwrites job.salary_max old.salary_max r.salary_max ∧
      keepsOrOverwrites job.salary_currency old.salary_currency
        r.salary_currency ∧
      keepsOrOverwrites job.description old.description r.description ∧
      keepsOrOverwrites job.skills_raw old.skills_raw r.skills_raw ∧
      keepsOrOverwrites job.posted_at old.posted_at r.posted_at ∧
      keepsOrOverwrites job.apply_url old.apply_url r.apply_url := by
  simp only [upsert_staging_job, h, if_true]
  refine ⟨_, rfl, ?_, ?_, ?_, ?_, ?_, ?_, ?_, ?_, ?_, ?_, ?_, ?_, ?_,
    ?_, ?_, ?_, ?_, ?_⟩
  all_goals first
    | rfl
    | exact coalesce_keepsOrOverwrites _ _

/-- Witness for C1 at a concrete store, stored row and observation. -/
theorem upsert_existing_updates_and_merges_witness :
    ∃ r, (upsert_staging_job storeC1 jobC1 5).1 jobC1.hash_key = some r ∧
      r.last_seen_at = 5 ∧
      r.first_seen_at = oldRowC1.first_seen_at ∧
      r.job_title = jobC1.job_title ∧
      r.company = jobC1.company ∧
      r.location = jobC1.location ∧
      r.source = jobC1.source ∧
      keepsOrOverwrites jobC1.provider_job_id oldRowC1.provider_job_id
        r.provider_job_id ∧
      keepsOrOverwrites jobC1.job_link oldRowC1.job_link r.job_link ∧
      keepsOrOverwrites jobC1.company_size oldRowC1.company_size
        r.company_size ∧
      keepsOrOverwrites jobC1.remote_type oldRowC1.remote_type
        r.remote_type ∧
      keepsOrOverwrites jobC1.contract_type oldRowC1.contract_type
        r.contract_type ∧
      keepsOrOverwrites jobC1.salary_min oldRowC1.salary_min r.salary_min ∧
      keepsOrOverwrites jobC1.salary_max oldRowC1.salary_max r.salary_max ∧
      keepsOrOverwrites jobC1.salary_currency oldRowC1.salary_currency
        r.salary_currency ∧
      keepsOrOverwrites jobC1.description oldRowC1.description
        r.description ∧
      keepsOrOverwrites jobC1.skills_raw oldRowC1.skills_raw r.skills_raw ∧
      keepsOrOverwrites jobC1.posted_at oldRowC1.posted_at r.posted_at ∧
      keepsOrOverwrites jobC1.apply_url oldRowC1.apply_url r.apply_url :=
  upsert_existing_updates_and_merges storeC1 jobC1 oldRowC1 5 (by rfl)

/-- Counterexample to C4 as stated: a record with an empty extracted
skill set is caught by the `if not job_skills` guard before the must-have
gate, scoring `0` — not the claimed floor `0.1`, and not strictly
positive. -/
theorem skills_gate_empty_skills_counterexample :
    calculate_skills_score [] ["python"] ["go", "rust"] = 0 ∧
    calculate_skills_score [] ["python"] ["go", "rust"] ≠ 1 / 10 := by
  have h0 : calculate_skills_score [] ["python"] ["go", "rust"] = 0 := rfl
  exact ⟨h0, by rw [h0]; norm_num⟩

/-- Claim C4 (amended: the record's extracted skill set must be
non-empty; an empty skill set short-circuits to `0`): whenever at least
one configured must-have skill is absent case-insensitively from a
non-empty skill set, the subscore equals the floor `0.1` — strictly
positive — regardless of nice-to-have overlap, and in particular is
at most `0.15`. -/
theorem skills_must_have_gate (job_skills must_have nice : List String)
    (hne : job_skills ≠ [])
    (hmiss : ∃ m ∈ must_have,
      (job_skills.map lowerStr).contains (lowerStr m) = false) :
    calculate_skills_score job_skills must_have nice = 1 / 10 ∧
    (0 : ℚ) < calculate_skills_score job_skills must_have nice ∧
    calculate_skills_score job_skills must_have nice ≤ 3 / 20 := by
  have hgate : (must_have.map lowerStr).countP
      (fun s => (job_skills.map lowerStr).contains s) <
      (must_have.map lowerStr).length := by
    apply countP_lt_of_exists_not
    obtain ⟨m, hm, hfalse⟩ := hmiss
    exact ⟨lowerStr m, List.mem_map_of_mem _ hm, hfalse⟩
  have hval : calculate_skills_score job_skills must_have nice = 1 / 10 := by
    simp only [calculate_skills_score]
    rw [if_neg hne, if_pos hgate]
  refine ⟨hval, ?_, ?_⟩
  · rw [hval]; norm_num
  · rw [hval]; norm_num

/-- Witness for C4 (amended) at a concrete record and profile. -/
theorem skills_must_have_gate_witness :
    calculate_skills_score ["java", "go"] ["python"] ["go"] = 1 / 10 ∧
    (0 : ℚ) < calculate_skills_score ["java", "go"] ["python"] ["go"] ∧
    calculate_skills_score ["java", "go"] ["python"] ["go"] ≤ 3 / 20 :=
  skills_must_have_gate ["java", "go"] ["python"] ["go"] (by decide)
    ⟨"python", by decide, by decide⟩

/-- Counterexample to C5 as stated: with no must-have and no nice-to-have
skills configured, a record with a non-empty skill set scores `0.8`, not
the claimed `0.5`; and a record with an empty skill set scores `0`, not
`0.5`. -/
theorem skills_base_score_counterexample :
    calculate_skills_score ["python"] [] [] = 4 / 5 ∧
    calculate_skills_score ["python"] [] [] ≠ 1 / 2 ∧
    calculate_skills_score [] [] ["go"] = 0 ∧
    calculate_skills_score [] [] ["go"] ≠ 1 / 2 := by
  have h1 : calculate_skills_score ["python"] [] [] = 4 / 5 := rfl
  have h2 : calculate_skills_score [] [] ["go"] = 0 := rfl
  exact ⟨h1, by rw [h1]; norm_num, h2, by rw [h2]; norm_num⟩

/-- Claim C5 (amended: the record's skill set must be non-empty — an
empty one scores `0` — and when no nice-to-have skills are configured the
subscore is `0.8` whether or not must-have skills are configured): for a
record containing all must-have skills case-insensitively, the subscore
is `0.5 + 0.5 ×` (fraction of nice-to-have skills present) when
nice-to-haves are configured, else `0.8`. -/
theorem skills_all_must_haves_present (job_skills must_have nice : List String)
    (hne : job_skills ≠ [])
    (hall : ∀ m ∈ must_have,
      (job_skills.map lowerStr).contains (lowerStr m) = true) :
    calculate_skills_score job_skills must_have nice =
      if nice = [] then 4 / 5
      else 1 / 2 + 1 / 2 *
        (((nice.map lowerStr).countP
          (fun s => (job_skills.map lowerStr).contains s) : ℚ) /
          ((nice.map lowerStr).length : ℚ)) := by
  have hgate : ¬ ((must_have.map lowerStr).countP
      (fun s => (job_skills.map lowerStr).contains s) <
      (must_have.map lowerStr).length) := by
    rw [not_lt]
    apply le_of_eq
    symm
    rw [List.countP_eq_length]
    intro a ha
    obtain ⟨m, hm, hma⟩ := List.mem_map.mp ha
    subst hma
    exact hall m hm
  have hmap : (nice.map lowerStr = []) ↔ (nice = []) := by
    simp
  simp only [calculate_skills_score]
  rw [if_neg hne, if_neg hgate]
  by_cases hn : nice = []
  · rw [if_pos (hmap.mpr hn), if_pos hn]
  · rw [if_neg (fun hh => hn (hmap.mp hh)), if_neg hn]

/-- Witness for C5 (amended) at a concrete record and profile. -/
theorem skills_all_must_haves_present_witness :
    calculate_skills_score ["Python", "sql"] ["python"] ["go", "SQL"] =
      (if (["go", "SQL"] : List String) = [] then 4 / 5
        else 1 / 2 + 1 / 2 *
          (((["go", "SQL"].map lowerStr).countP
            (fun s => (["Python", "sql"].map lowerStr).contains s) : ℚ) /
            ((["go", "SQL"].map lowerStr).length : ℚ))) :=
  skills_all_must_haves_present ["Python", "sql"] ["python"] ["go", "SQL"]
    (by decide) (by decide)

/-- Claim C7: the source's own comments and docstring promise that a
word-level code `L4` classifies as `intermediate` and `L5`-or-higher as
`senior`, but `re.search(r"\bL([4-9]|[1-9][0-9]+)\b", ...)` runs against
the lower-cased title with a case-sensitive upper-case `L`, so the branch
can never fire: both titles fall through to `"unknown"`. -/
theorem seniority_level_code_dead :
    extract_seniority_level "Engineer L4" = "unknown" ∧
    extract_seniority_level "Engineer L5" = "unknown" := by
  constructor <;> decide

/-- Claim C10: the salary subscore is not total — a zero-width target
band with a midpoint outside it divides by zero (`ZeroDivisionError`,
modelled as `none`), while a positive-width band makes the error branch
unreachable. -/
theorem salary_score_zero_width_band_division :
    calculate_salary_score (some 60000) none 50000 50000 = none ∧
    ∀ smin smax : Option ℚ, ∀ tmin tmax : ℚ, tmin < tmax →
      calculate_salary_score smin smax tmin tmax ≠ none := by
  constructor
  · norm_num [calculate_salary_score, salaryMidpoint, truthy]
  · intro smin smax tmin tmax hlt hnone
    obtain ⟨q, hq⟩ := salary_score_isSome_of_lt smin smax tmin tmax hlt
    rw [hq] at hnone
    exact Option.noConfusion hnone

/-- Witness for C10's totality part at a concrete positive-width band. -/
theorem salary_score_zero_width_band_division_witness :
    calculate_salary_score (some 60000) none 40000 50000 ≠ none :=
  salary_score_zero_width_band_division.2 (some 60000) none 40000 50000
    (by norm_num)

/-- An out-of-band taper value is strictly below `1`. -/
theorem taper_lt_one {d w : ℚ} (hd : 0 < d) (hw : 0 < w) :
    max (1 / 10) (1 - min (d / w) 1) < 1 := by
  have hp : 0 < d / w := div_pos hd hw
  have hmin : 0 < min (d / w) 1 := lt_min hp (by norm_num)
  have h1 : 1 - min (d / w) 1 < 1 := by linarith
  exact max_lt (by norm_num) h1

/-- Evaluation of the in-band / taper branch structure shared by the two
C6 conclusions. -/
theorem band_branch_eval (A tmin tmax : ℚ) (h : tmin < tmax) :
    ((if tmin ≤ A ∧ A ≤ tmax then (some 1 : Option ℚ)
        else if tmax - tmin = 0 then none
        else if A < tmin then
          some (max (1 / 10) (1 - min ((tmin - A) / (tmax - tmin)) 1))
        else some (max (1 / 10) (1 - min ((A - tmax) / (tmax - tmin)) 1))) =
        some 1 ↔ tmin ≤ A ∧ A ≤ tmax) ∧
    (¬ (tmin ≤ A ∧ A ≤ tmax) →
      (if tmin ≤ A ∧ A ≤ tmax then (some 1 : Option ℚ)
        else if tmax - tmin = 0 then none
        else if A < tmin then
          some (max (1 / 10) (1 - min ((tmin - A) / (tmax - tmin)) 1))
        else some (max (1 / 10) (1 - min ((A - tmax) / (tmax - tmin)) 1))) =
        some (max (1 / 10)
          (1 - (if A < tmin then tmin - A else A - tmax) / (tmax - tmin)))) := by
  have hw : 0 < tmax - tmin := sub_pos.mpr h
  have hr : ¬ (tmax - tmin = 0) := ne_of_gt hw
  by_cases hin : tmin ≤ A ∧ A ≤ tmax
  · rw [if_pos hin]
    exact ⟨by simp [hin], fun hc => absurd hin hc⟩
  · rw [if_neg hin, if_neg hr]
    by_cases hlt : A < tmin
    · rw [if_pos hlt]
      have hvlt := taper_lt_one (sub_pos.mpr hlt) hw
      exact ⟨⟨fun he => absurd (Option.some.inj he) (ne_of_lt hvlt),
        fun hc => absurd hc hin⟩,
        fun hnot => by rw [max_taper_min_cap, if_pos hlt]⟩
    · rw [if_neg hlt]
      have hgt : tmax < A := by
        rcases not_and_or.mp hin with h1 | h1
        · exact absurd (not_lt.mp hlt) h1
        · exact not_le.mp h1
      have hvlt := taper_lt_one (sub_pos.mpr hgt) hw
      exact ⟨⟨fun he => absurd (Option.some.inj he) (ne_of_lt hvlt),
        fun hc => absurd hc hin⟩,
        fun hnot => by rw [max_taper_min_cap, if_neg hlt]⟩

/-- Counterexample to C6 as stated: a record with `salary_min = 0` and
`salary_max = 50000` has both bounds present and midpoint `25000`, inside
the band `[20000, 30000]` — the claim demands `1.0` — but the source's
truthiness guards treat the zero bound as absent, use `50000` as the
midpoint and return the taper floor `0.1`. -/
theorem salary_zero_bound_counterexample :
    calculate_salary_score (some 0) (some 50000) 20000 30000 =
      some (1 / 10) ∧
    calculate_salary_score (some 0) (some 50000) 20000 30000 ≠ some 1 := by
  have hv : calculate_salary_score (some 0) (some 50000) 20000 30000 =
      some (1 / 10) := by
    norm_num [calculate_salary_score, salaryMidpoint, truthy, min_def, max_def]
  exact ⟨hv, by rw [hv]; simp⟩

/-- Claim C6 (amended: a compensation bound is “present” when it is
non-null *and non-zero* — the source's Python truthiness treats a `0`
bound like a missing one): for every target band with
`target_min < target_max`, the subscore is `0.5` when neither bound is
present; otherwise it is exactly `1.0` iff the midpoint (average when
both bounds are present, else the single present bound) lies in the band,
and outside the band it equals
`max 0.1 (1 − distance-from-band / band-width)`. -/
theorem salary_band_fit (smin smax : Option ℚ) (tmin tmax : ℚ)
    (h : tmin < tmax) :
    (truthy smin = false ∧ truthy smax = false →
      calculate_salary_score smin smax tmin tmax = some (1 / 2)) ∧
    ((truthy smin = true ∨ truthy smax = true) →
      (calculate_salary_score smin smax tmin tmax = some 1 ↔
        tmin ≤ salaryMidpoint smin smax ∧ salaryMidpoint smin smax ≤ tmax) ∧
      (¬ (tmin ≤ salaryMidpoint smin smax ∧
          salaryMidpoint smin smax ≤ tmax) →
        calculate_salary_score smin smax tmin tmax =
          some (max (1 / 10)
            (1 - (if salaryMidpoint smin smax < tmin
                then tmin - salaryMidpoint smin smax
                else salaryMidpoint smin smax - tmax) / (tmax - tmin))))) := by
  constructor
  · rintro ⟨h1, h2⟩
    have hc : (!truthy smin && !truthy smax) = true := by rw [h1, h2]; rfl
    simp only [calculate_salary_score]
    rw [if_pos hc]
  · intro hor
    have hcond : ¬ ((!truthy smin && !truthy smax) = true) := by
      rcases hor with h1 | h1 <;> simp [h1]
    simp only [calculate_salary_score]
    rw [if_neg hcond]
    exact band_branch_eval (salaryMidpoint smin smax) tmin tmax h

/-- Witness for C6 (amended): band `[40000, 60000]` with only the upper
bound present. -/
theorem salary_band_fit_witness :
    calculate_salary_score none (some 50000) 40000 60000 = some 1 ↔
      (40000 : ℚ) ≤ salaryMidpoint none (some 50000) ∧
        salaryMidpoint none (some 50000) ≤ 60000 :=
  ((salary_band_fit none (some 50000) 40000 60000 (by norm_num)).2
    (Or.inr (by norm_num [truthy]))).1

/-- Claim C2: the fingerprint is invariant under case changes and under
adding leading/trailing whitespace or collapsing internal whitespace runs
in any of the three identity fields — formalized as invariance under
`lowerTokens`, the case-folded sequence of maximal non-whitespace runs,
which all three listed variations preserve — whenever the fields
normalize to non-empty strings. -/
theorem generate_hash_key_case_ws_invariant
    (org title loc org2 title2 loc2 : String)
    (horg : lowerTokens org = lowerTokens org2)
    (htitle : lowerTokens title = lowerTokens title2)
    (hloc : lowerTokens loc = lowerTokens loc2)
    (hne : lowerStr (normalize_whitespace org) ≠ "" ∧
      lowerStr (normalize_whitespace title) ≠ "" ∧
      lowerStr (normalize_whitespace loc) ≠ "") :
    generate_hash_key org title loc = generate_hash_key org2 title2 loc2 := by
  have e1 := normLower_eq_of_lowerTokens horg
  have e2 := normLower_eq_of_lowerTokens htitle
  have e3 := normLower_eq_of_lowerTokens hloc
  simp only [generate_hash_key]
  rw [e1, e2, e3]

/-- Witness for C2: the spec's own example shape — upper-casing, doubled
internal spaces, and leading/trailing padding. -/
theorem generate_hash_key_case_ws_invariant_witness :
    generate_hash_key "ACME  Corp" "Data   Engineer" "  Montreal, QC  " =
      generate_hash_key "acme corp" "data engineer" "montreal, qc" :=
  generate_hash_key_case_ws_invariant _ _ _ _ _ _
    (by simp [lowerTokens, wsTokens, pySpace, nonWS])
    (by simp [lowerTokens, wsTokens, pySpace, nonWS])
    (by simp [lowerTokens, wsTokens, pySpace, nonWS])
    ⟨by decide, by decide, by decide⟩

/-- Claim C8: `generate_hash_key` raises `ValueError` (modelled `.error`)
iff at least one of the three identity fields normalizes — whitespace
collapse plus lower-casing — to the empty string; when all three are
non-empty it returns a 32-character lowercase hexadecimal digest. -/
theorem generate_hash_key_error_iff (company job_title location : String) :
    ((generate_hash_key company job_title location).isOk = false ↔
      (lowerStr (normalize_whitespace company) = "" ∨
        lowerStr (normalize_whitespace job_title) = "" ∨
        lowerStr (normalize_whitespace location) = "")) ∧
    ∀ d, generate_hash_key company job_title location = .ok d →
      d.length = 32 ∧ d.data.all isHexDigitChar = true := by
  constructor
  · simp only [generate_hash_key]
    split_ifs with h1 h2 h3
    · simp [Except.isOk, Except.toBool, h1]
    · simp [Except.isOk, Except.toBool, h2]
    · simp [Except.isOk, Except.toBool, h3]
    · simp [Except.isOk, Except.toBool, h1, h2, h3]
  · intro d hd
    simp only [generate_hash_key] at hd
    split_ifs at hd with h1 h2 h3 <;> cases hd <;>
      exact ⟨md5Hex_length _, md5Hex_allHex _⟩

/-- Witness for C8: evaluating the fingerprint on a concrete record and
checking the digest's shape. -/
theorem generate_hash_key_error_iff_witness :
    ("846a0d2199ba90faf86277cfd8db7487" : String).length = 32 ∧
    ("846a0d2199ba90faf86277cfd8db7487" : String).data.all isHexDigitChar
      = true :=
  (generate_hash_key_error_iff "Acme Corp" "Data Engineer" "Montreal, QC").2
    "846a0d2199ba90faf86277cfd8db7487" (by rfl)

/-- Counterexample to C3 as stated: `calculate_rank` does not return a
pair for *every* record and configuration — a zero-width salary target
band with the record's compensation midpoint outside it propagates the
salary subscore's `ZeroDivisionError` (modelled `none`). -/
theorem calculate_rank_zero_width_band_counterexample :
    calculate_rank jobSalaryOnly cfgZeroBand = none := by
  have hsal : calculate_salary_score jobSalaryOnly.salary_min_norm
      jobSalaryOnly.salary_max_norm
      cfgZeroBand.profile.salary_target_cad.min
      cfgZeroBand.profile.salary_target_cad.max = none := by
    norm_num [calculate_salary_score, salaryMidpoint, truthy, jobSalaryOnly,
      cfgZeroBand, profileZeroBand]
  simp only [calculate_rank, hsal]

/-- Claim C3 (amended: provided the configured salary target band has
positive width — otherwise the salary subscore raises and no pair is
returned, per C10): `calculate_rank` returns `(score, explanation)` with
the score equal to 100 times the weighted sum of the eight subscores,
rounded to two decimals and clamped to `[0, 100]`, and the explanation
holding an entry for every one of the eight named subscores. -/
theorem calculate_rank_bounds_and_explains (job : Job) (config : RankingConfig)
    (h : config.profile.salary_target_cad.min <
      config.profile.salary_target_cad.max) :
    ∃ s e sal,
      calculate_salary_score job.salary_min_norm job.salary_max_norm
        config.profile.salary_target_cad.min
        config.profile.salary_target_cad.max = some sal ∧
      calculate_rank job config = some (s, e) ∧
      s = max 0 (min 100 (pyRound2 (100 * (
        config.weights.title_keywords *
          calculate_title_score (job.job_title_std.getD "")
            config.profile.title_keywords +
        config.weights.skills_overlap *
          calculate_skills_score (job.skills.getD [])
            config.profile.must_have_skills
            config.profile.nice_to_have_skills +
        config.weights.location_proximity *
          calculate_location_score (job.location_std.getD "")
            config.profile.location_home +
        config.weights.salary_band * sal +
        config.weights.employment_type *
          calculate_contract_score (job.contract_type.getD "unknown")
            config.profile.preferred_contracts +
        config.weights.seniority_match *
          calculate_seniority_score job.seniority_level
            config.profile.seniority +
        config.weights.remote_type *
          calculate_remote_score (job.remote_type.getD "unknown")
            config.profile.preferred_remote +
        config.weights.company_size *
          calculate_company_size_score (job.company_size.getD "unknown")
            config.profile.preferred_company_sizes)))) ∧
      0 ≤ s ∧ s ≤ 100 ∧
      e.lookup "title_keywords" = some (calculate_title_score
        (job.job_title_std.getD "") config.profile.title_keywords) ∧
      e.lookup "skills_overlap" = some (calculate_skills_score
        (job.skills.getD []) config.profile.must_have_skills
        config.profile.nice_to_have_skills) ∧
      e.lookup "location_proximity" = some (calculate_location_score
        (job.location_std.getD "") config.profile.location_home) ∧
      e.lookup "salary_band" = some sal ∧
      e.lookup "employment_type" = some (calculate_contract_score
        (job.contract_type.getD "unknown")
        config.profile.preferred_contracts) ∧
      e.lookup "seniority_match" = some (calculate_seniority_score
        job.seniority_level config.profile.seniority) ∧
      e.lookup "remote_type" = some (calculate_remote_score
        (job.remote_type.getD "unknown") config.profile.preferred_remote) ∧
      e.lookup "company_size" = some (calculate_company_size_score
        (job.company_size.getD "unknown")
        config.profile.preferred_company_sizes) := by
  obtain ⟨sal, hsal⟩ := salary_score_isSome_of_lt job.salary_min_norm
    job.salary_max_norm _ _ h
  simp only [calculate_rank, hsal]
  refine ⟨_, _, _, rfl, rfl, ?_, ?_, ?_, ?_, ?_, ?_, ?_, ?_, ?_, ?_, ?_⟩
  · rw [mul_comm (100 : ℚ)]
  · exact le_max_left 0 _
  · exact max_le (by norm_num) (min_le_left _ _)
  · rfl
  · rfl
  · rfl
  · rfl
  · rfl
  · rfl
  · rfl
  · rfl

/-- Witness for C3 (amended) at a concrete record and configuration. -/
theorem calculate_rank_bounds_and_explains_witness :
    ∃ s e sal,
      calculate_salary_score jobSalaryOnly.salary_min_norm
        jobSalaryOnly.salary_max_norm
        cfgC3.profile.salary_target_cad.min
        cfgC3.profile.salary_target_cad.max = some sal ∧
      calculate_rank jobSalaryOnly cfgC3 = some (s, e) ∧
      s = max 0 (min 100 (pyRound2 (100 * (
        cfgC3.weights.title_keywords *
          calculate_title_score (jobSalaryOnly.job_title_std.getD "")
            cfgC3.profile.title_keywords +
        cfgC3.weights.skills_overlap *
          calculate_skills_score (jobSalaryOnly.skills.getD [])
            cfgC3.profile.must_have_skills
            cfgC3.profile.nice_to_have_skills +
        cfgC3.weights.location_proximity *
          calculate_location_score (jobSalaryOnly.location_std.getD "")
            cfgC3.profile.location_home +
        cfgC3.weights.salary_band * sal +
        cfgC3.weights.employment_type *
          calculate_contract_score (jobSalaryOnly.contract_type.getD "unknown")
            cfgC3.profile.preferred_contracts +
        cfgC3.weights.seniority_match *
          calculate_seniority_score jobSalaryOnly.seniority_level
            cfgC3.profile.seniority +
        cfgC3.weights.remote_type *
          calculate_remote_score (jobSalaryOnly.remote_type.getD "unknown")
            cfgC3.profile.preferred_remote +
        cfgC3.weights.company_size *
          calculate_company_size_score (jobSalaryOnly.company_size.getD "unknown")
            cfgC3.profile.preferred_company_sizes)))) ∧
      0 ≤ s ∧ s ≤ 100 ∧
      e.lookup "title_keywords" = some (calculate_title_score
        (jobSalaryOnly.job_title_std.getD "") cfgC3.profile.title_keywords) ∧
      e.lookup "skills_overlap" = some (calculate_skills_score
        (jobSalaryOnly.skills.getD []) cfgC3.profile.must_have_skills
        cfgC3.profile.nice_to_have_skills) ∧
      e.lookup "location_proximity" = some (calculate_location_score
        (jobSalaryOnly.location_std.getD "") cfgC3.profile.location_home) ∧
      e.lookup "salary_band" = some sal ∧
      e.lookup "employment_type" = some (calculate_contract_score
        (jobSalaryOnly.contract_type.getD "unknown")
        cfgC3.profile.preferred_contracts) ∧
      e.lookup "seniority_match" = some (calculate_seniority_score
        jobSalaryOnly.seniority_level cfgC3.profile.seniority) ∧
      e.lookup "remote_type" = some (calculate_remote_score
        (jobSalaryOnly.remote_type.getD "unknown")
        cfgC3.profile.preferred_remote) ∧
      e.lookup "company_size" = some (calculate_company_size_score
        (jobSalaryOnly.company_size.getD "unknown")
        cfgC3.profile.preferred_company_sizes) :=
  calculate_rank_bounds_and_explains jobSalaryOnly cfgC3
    (by norm_num [cfgC3, profileC3])

/-- Claim C9: whenever normalization succeeds and both compensation
bounds parse to numbers, the output is ordered — the parsed values are
emitted as `(min, max)`, i.e. swapped when the parsed minimum exceeds the
parsed maximum, and neither bound is dropped. -/
theorem normalize_swaps_salary_bounds (raw : RawJob) (src : String)
    (out : NormalizedJob) (a b : ℚ)
    (hmin : parse_numeric raw.salary_min = some a)
    (hmax : parse_numeric raw.salary_max = some b)
    (hok : normalize_job_posting raw src = .ok out) :
    out.salary_min = some (min a b) ∧ out.salary_max = some (max a b) ∧
      min a b ≤ max a b := by
  simp only [normalize_job_posting, hmin, hmax] at hok
  split at hok
  · exact absurd hok (by simp)
  · split at hok
    · exact absurd hok (by simp)
    · split at hok
      · exact absurd hok (by simp)
      · split at hok
        · exact absurd hok (by simp)
        · have hrec := Except.ok.inj hok
          subst hrec
          by_cases hab : a > b
          · simp only [if_pos hab]
            exact ⟨by rw [min_eq_right (le_of_lt hab)],
              by rw [max_eq_left (le_of_lt hab)], min_le_max⟩
          · simp only [if_neg hab]
            have hle : a ≤ b := not_lt.mp hab
            exact ⟨by rw [min_eq_left hle], by rw [max_eq_right hle],
              min_le_max⟩

/-- Witness for C9: a raw record with inverted bounds (numeric `100000`,
numeric string `"50000"`) normalizes with the two bounds swapped. -/
theorem normalize_swaps_salary_bounds_witness :
    outC9.salary_min = some (min 100000 50000) ∧
    outC9.salary_max = some (max 100000 50000) ∧
    min (100000 : ℚ) 50000 ≤ max 100000 50000 :=
  normalize_swaps_salary_bounds rawC9 "jsearch" outC9 100000 50000
    (by rfl) (by rfl) (by rfl)

end JobEtl
